import Mathlib

/-!
Shallow embedding of `ibis/backends/dask/executor.py`: the Dask physical
executor of the ibis dataframe engine.  Dataframes are modelled as lists of
rows; a partitioned (dask) dataframe is a list of partitions, each a list of
rows.  Machine substrate behaviour (pandas `iat`, `iloc`, `between`,
`sort_values`, dask `reduction`, `map_partitions`, `concat`) is embedded with
its documented semantics; fallible operations return `Option` or
`Except IbisError`.
-/

namespace DaskExec

/-- Pandas column dtypes, as far as the executor distinguishes them. -/
inductive DType
  | int64
  | float64
  | boolean
  | object
  deriving DecidableEq, Repr

/-- An in-memory dataframe: column names, column dtypes, and rows of cells. -/
structure Frame (α : Type) where
  cols : List String
  dtypes : List DType
  rows : List (List α)
  deriving DecidableEq, Repr

/-- Exceptions raised by the executor, one constructor per Python exception
class (`ibis.common.exceptions` plus the builtin `ValueError`), so that the
error taxonomy of the spec is visible in the type. -/
inductive IbisError
  | unboundExpressionError (msg : String)
  | unsupportedOperationError (msg : String)
  | valueError (msg : String)
  deriving DecidableEq, Repr

/-! ### Limit (claim C1)

Source: `limit_df` (executor.py lines 36-50) and
`DaskExecutor.visit(PandasLimit)` (lines 306-318). -/

/-- An `n`/`offset` argument of `limit_df`: a Python int, Python `None`
(only meaningful for `n`), or a materialized single-cell `pd.DataFrame`
produced by a scalar subquery. -/
inductive LimitArg
  | lit (i : Int)
  | null
  | frame (rows : List (List Int))
  deriving DecidableEq, Repr

/-- Pandas `df.iat[0, 0]`: the cell at row 0, column 0; `none` models the
IndexError raised when the frame has no such cell. -/
def iat00 (rows : List (List Int))  : Option Int :=
  rows.head?.bind List.head?

/-- The two `isinstance(_, pd.DataFrame)` extraction steps at the top of
`limit_df`: a materialized frame argument is replaced by its `iat[0, 0]`
scalar.  The outer `Option` is failure of the extraction itself; the inner
`Option` is the Python value (`none` models Python `None`). -/
def extractBound : LimitArg → Option (Option Int)
  | .lit i => some (some i)
  | .null => some none
  | .frame rows => (iat00 rows).map some

/-- Body of `limit_df`, acting on one partition whose rows carry the
row-identifier column as a `Nat` component: when `n` is `None` keep rows with
identifier at least `offset`, otherwise keep rows whose identifier lies in the
inclusive interval `[offset, offset + n - 1]` (pandas `Series.between` is
inclusive on both ends).  A `None` offset would make the comparison raise, so
it yields `none`. -/
def limit_df (df : List (Nat × α)) (n offset : LimitArg) : Option (List (Nat × α)) := do
  let off ← extractBound offset
  let nv ← extractBound n
  match off with
  | none => none
  | some o =>
    match nv with
    | none => some (df.filter fun r => decide (o ≤ (r.1 : Int)))
    | some k => some (df.filter fun r => decide (o ≤ (r.1 : Int) ∧ (r.1 : Int) ≤ o + k - 1))

/-- Modelled from the spec: `add_globally_consecutive_column`
(ibis/backends/dask/helpers.py, imported by the executor but not under src/).
Spec section 4.3 Row-Identity Service: add an integer column that is unique
and strictly increasing when partitions are read in order, assigned from
prefix row counts.  `addRowIdsFrom start` numbers the rows of the partitions
consecutively starting at `start`. -/
def addRowIdsFrom (start : Nat) : List (List α) → List (List (Nat × α))
  | [] => []
  | p :: ps => p.enumFrom start :: addRowIdsFrom (start + p.length) ps

/-- Modelled from the spec: the row-identity service applied to a whole
partitioned table, numbering from zero. -/
def add_globally_consecutive_column (parts : List (List α)) : List (List (Nat × α)) :=
  addRowIdsFrom 0 parts

/-- `DaskExecutor.visit(PandasLimit)` (executor.py lines 306-318): add the
globally consecutive row-identifier column, apply `limit_df` to every
partition (`map_partitions`), then drop the identifier column. -/
def visitPandasLimit (parent : List (List α)) (n offset : LimitArg) :
    Option (List (List α)) :=
  ((add_globally_consecutive_column parent).mapM fun p => limit_df p n offset).map
    (List.map (List.map Prod.snd))

/-! ### Argmin/Argmax reduction (claim C2)

Source: `argminmax_chunk` / `argminmax_aggregate` (executor.py lines 53-59)
and `DaskExecutor.visit(ArgMin | ArgMax)` (lines 182-204).  A row is a
`(key, value)` pair of the key column and the value column. -/

/-- Which extremum is being computed (the `method` string argument). -/
inductive ExtremeMethod
  | argmin
  | argmax
  deriving DecidableEq, Repr

/-- Strict improvement test: pandas `Series.argmin`/`Series.argmax` return
the FIRST position attaining the extremum, so a later row replaces the
current best row only when its key is strictly better. -/
def beats : ExtremeMethod → Int → Int → Bool
  | .argmax, cand, cur => decide (cur < cand)
  | .argmin, cand, cur => decide (cand < cur)

/-- One step of scanning for the extremal row: keep the current best unless
the candidate strictly beats it. -/
def pickBest (method : ExtremeMethod) (best row : Int × Int) : Int × Int :=
  if beats method row.1 best.1 then row else best

/-- The row at the first extremal position of the key column: the semantics
of `df.iloc[idx]` with `idx = getattr(df[keycol], method)()`. -/
def bestRow (method : ExtremeMethod) (r : Int × Int) (rs : List (Int × Int)) : Int × Int :=
  rs.foldl (pickBest method) r

/-- `argminmax_chunk` (executor.py lines 53-55): the one-row slice
`df[[keycol, valcol]].iloc[idx : idx + 1]` at the first extremal key
position.  Pandas raises on an empty chunk; the claims only use nonempty
partitions, where the result is the singleton best row. -/
def argminmax_chunk (method : ExtremeMethod) : List (Int × Int) → List (Int × Int)
  | [] => []
  | r :: rs => [bestRow method r rs]

/-- `argminmax_aggregate` (executor.py lines 58-59):
`df[valcol].iloc[getattr(df[keycol], method)()]`, the value component of the
first extremal-key row; `none` models the raise on an empty frame. -/
def argminmax_aggregate (method : ExtremeMethod) : List (Int × Int) → Option Int
  | [] => none
  | r :: rs => some (bestRow method r rs).2

/-- Dask `dd.DataFrame.reduction(chunk=argminmax_chunk,
combine=argminmax_chunk, aggregate=argminmax_aggregate, ...)` as invoked at
executor.py lines 190-200: `chunk` runs on every partition, the partial
one-row frames are concatenated in partition order, and `aggregate` runs on
the concatenation.  Intermediate `combine` levels of the dask tree reduce
apply `argminmax_chunk` to concatenations of partials; the lemma
`argminmax_chunk_flatten_chunk` below shows such levels leave the final
result unchanged, so the one-level form is the general behaviour. -/
def reduction (method : ExtremeMethod) (parts : List (List (Int × Int))) : Option Int :=
  argminmax_aggregate method ((parts.map (argminmax_chunk method)).flatten)

/-! Lemmas for C1. -/

theorem addRowIdsFrom_flatten (start : Nat) (parts : List (List α)) :
    (addRowIdsFrom start parts).flatten = parts.flatten.enumFrom start := by
  induction parts generalizing start with
  | nil => simp [addRowIdsFrom]
  | cons p ps ih =>
    simp only [addRowIdsFrom, List.flatten_cons, List.flatten, ih,
      List.enumFrom_append]

theorem mapM_option_of_forall_some {α β : Type} (f : α → Option β) (g : α → β)
    (l : List α) (h : ∀ x, f x = some (g x)) : l.mapM f = some (l.map g) := by
  induction l with
  | nil => rfl
  | cons x xs ih =>
    rw [List.mapM_cons, h, ih]
    rfl

theorem flatten_map_filter {α : Type} (p : α → Bool) (L : List (List α)) :
    (L.map (List.filter p)).flatten = L.flatten.filter p := by
  induction L with
  | nil => rfl
  | cons l ls ih =>
    simp only [List.map_cons, List.flatten_cons, List.filter_append, ih]

/-- The row-keeping predicate of `limit_df` once the two bounds have been
extracted: identifier at least `offset` when `n` is `None`, identifier in the
inclusive interval `[offset, offset + n - 1]` otherwise. -/
def limitPred (o : Int) (nv : Option Int) (r : Nat × α) : Bool :=
  match nv with
  | none => decide (o ≤ (r.1 : Int))
  | some k => decide (o ≤ (r.1 : Int) ∧ (r.1 : Int) ≤ o + k - 1)

theorem limit_df_eq {α : Type} (df : List (Nat × α)) (n offset : LimitArg)
    (o : Int) (nv : Option Int)
    (ho : extractBound offset = some (some o))
    (hn : extractBound n = some nv) :
    limit_df df n offset = some (df.filter (limitPred o nv)) := by
  unfold limit_df
  rw [ho, hn]
  cases nv <;> rfl

/-- C1: for every partitioned table, once the globally monotonic row
identifier column is added, `visitPandasLimit` keeps exactly the rows whose
identifier lies in `[offset, offset + n - 1]` (all rows with identifier at
least `offset` when `n` is null), drops the identifier column, and each of
`n` and `offset` is accepted either as an integer literal or as a
single-row/single-column materialized frame whose scalar is read at
position (0, 0). -/
theorem limit_selects_identifier_range {α : Type} (parent : List (List α))
    (n offset : LimitArg) (o : Int) (nv : Option Int)
    (ho : extractBound offset = some (some o))
    (hn : extractBound n = some nv) :
    (∀ c : Int, extractBound (LimitArg.lit c) = some (some c) ∧
      extractBound (LimitArg.frame [[c]]) = some (some c)) ∧
    ∃ out, visitPandasLimit parent n offset = some out ∧
      out.flatten = (parent.flatten.enum.filter (limitPred o nv)).map Prod.snd := by
  refine ⟨fun c => ⟨rfl, rfl⟩, ?_⟩
  have hmapM := mapM_option_of_forall_some (fun p => limit_df p n offset)
    (fun p => p.filter (limitPred o nv)) (add_globally_consecutive_column parent)
    (fun p => limit_df_eq p n offset o nv ho hn)
  refine ⟨((add_globally_consecutive_column parent).map
    (fun p => p.filter (limitPred o nv))).map (List.map Prod.snd), ?_, ?_⟩
  · unfold visitPandasLimit
    rw [hmapM]
    rfl
  · rw [← List.map_flatten, flatten_map_filter, add_globally_consecutive_column,
      addRowIdsFrom_flatten]
    rfl

/-- Witness for C1 at a concrete input: partitions `[[10, 20], [30]]`,
`n` given as the single-cell frame `[[2]]`, `offset` as the literal `1`;
the surviving rows are those with identifiers 1 and 2, namely `[20, 30]`. -/
theorem limit_selects_identifier_range_witness :
    ((∀ c : Int, extractBound (LimitArg.lit c) = some (some c) ∧
      extractBound (LimitArg.frame [[c]]) = some (some c)) ∧
    ∃ out, visitPandasLimit [[(10 : Int), 20], [30]]
        (LimitArg.frame [[2]]) (LimitArg.lit 1) = some out ∧
      out.flatten =
        ([[(10 : Int), 20], [30]].flatten.enum.filter (limitPred 1 (some 2))).map
          Prod.snd) ∧
    ([[(10 : Int), 20], [30]].flatten.enum.filter (limitPred 1 (some 2))).map
      Prod.snd = [20, 30] :=
  ⟨limit_selects_identifier_range [[(10 : Int), 20], [30]]
    (LimitArg.frame [[2]]) (LimitArg.lit 1) 1 (some 2) rfl rfl, by decide⟩

/-! Lemmas for C2. -/

theorem pickBest_assoc (m : ExtremeMethod) (a b c : Int × Int) :
    pickBest m (pickBest m a b) c = pickBest m a (pickBest m b c) := by
  cases m <;> simp only [pickBest, beats, decide_eq_true_eq] <;>
    split_ifs <;> first | rfl | omega

theorem foldl_pickBest_pickBest (m : ExtremeMethod) (ss : List (Int × Int))
    (a b : Int × Int) :
    ss.foldl (pickBest m) (pickBest m a b) =
      pickBest m a (ss.foldl (pickBest m) b) := by
  induction ss generalizing b with
  | nil => rfl
  | cons s ss ih =>
    rw [List.foldl_cons, pickBest_assoc, ih, List.foldl_cons]

/-- The extremal row of a batch, if any: `some` of the first row attaining
the extremal key, `none` for an empty batch. -/
def best? (m : ExtremeMethod) : List (Int × Int) → Option (Int × Int)
  | [] => none
  | r :: rs => some (bestRow m r rs)

/-- Merging two optional extremal rows, keeping the earlier one on ties. -/
def omerge (m : ExtremeMethod) : Option (Int × Int) → Option (Int × Int) → Option (Int × Int)
  | none, b => b
  | a, none => a
  | some a, some b => some (pickBest m a b)

theorem best?_append (m : ExtremeMethod) (l1 l2 : List (Int × Int)) :
    best? m (l1 ++ l2) = omerge m (best? m l1) (best? m l2) := by
  cases l1 with
  | nil => cases l2 <;> rfl
  | cons r rs =>
    cases l2 with
    | nil => simp [best?, omerge]
    | cons s ss =>
      simp [best?, omerge, bestRow, List.foldl_append, foldl_pickBest_pickBest]

theorem argminmax_chunk_eq_toList (m : ExtremeMethod) (l : List (Int × Int)) :
    argminmax_chunk m l = (best? m l).toList := by
  cases l <;> rfl

theorem best?_chunk (m : ExtremeMethod) (l : List (Int × Int)) :
    best? m (argminmax_chunk m l) = best? m l := by
  cases l <;> rfl

theorem best?_flatten_map_chunk (m : ExtremeMethod)
    (parts : List (List (Int × Int))) :
    best? m ((parts.map (argminmax_chunk m)).flatten) = best? m parts.flatten := by
  induction parts with
  | nil => rfl
  | cons p ps ih =>
    simp only [List.map_cons, List.flatten_cons, best?_append, best?_chunk, ih]

theorem argminmax_aggregate_eq_best? (m : ExtremeMethod) (l : List (Int × Int)) :
    argminmax_aggregate m l = (best? m l).map Prod.snd := by
  cases l <;> rfl

/-- C2: the chunk/combine/aggregate reduction for argmin/argmax yields, for
every partitioning into nonempty partitions, the same value as the direct
(single-batch) aggregate over all the rows — so the result is independent of
the partitioning — and re-applying the extremal selection to merge partials
(the combine phase) collapses to the extremal selection over the underlying
rows, so additional combine levels cannot change the result either. -/
theorem reduction_partitioning_invariant (m : ExtremeMethod)
    (parts : List (List (Int × Int))) (_hne : ∀ p ∈ parts, p ≠ []) :
    reduction m parts = argminmax_aggregate m parts.flatten ∧
    argminmax_chunk m ((parts.map (argminmax_chunk m)).flatten) =
      argminmax_chunk m parts.flatten := by
  refine ⟨?_, ?_⟩
  · unfold reduction
    rw [argminmax_aggregate_eq_best?, argminmax_aggregate_eq_best?,
      best?_flatten_map_chunk]
  · rw [argminmax_chunk_eq_toList, argminmax_chunk_eq_toList,
      best?_flatten_map_chunk]

/-- Counterexample for C2 as stated: on the rows
`[(k=1,v=10),(k=5,v=2),(k=3,v=9)]` the code maximizes the KEY column and
extracts the VALUE column, so `argmax` yields the value at the extremal key
`k=5`, namely `v=2` — not `v=10` — under either partitioning. -/
theorem argmax_example_value_cex :
    reduction ExtremeMethod.argmax [[(1, 10)], [(5, 2)], [(3, 9)]] = some 2 ∧
    reduction ExtremeMethod.argmax [[(1, 10), (5, 2), (3, 9)]] = some 2 ∧
    some (2 : Int) ≠ some (10 : Int) := by
  decide

/-- Witness for C2 (amended) at the concrete rows of the claim:
`argmax` over `[(k=1,v=10),(k=5,v=2),(k=3,v=9)]` yields `v=2` (the value at
the extremal key `k=5`) both as three single-row partitions and as one
partition. -/
theorem reduction_partitioning_invariant_witness :
    (reduction ExtremeMethod.argmax [[(1, 10)], [(5, 2)], [(3, 9)]] =
      argminmax_aggregate ExtremeMethod.argmax
        ([[((1 : Int), (10 : Int))], [(5, 2)], [(3, 9)]].flatten) ∧
     argminmax_chunk ExtremeMethod.argmax
        (([[((1 : Int), (10 : Int))], [(5, 2)], [(3, 9)]].map
          (argminmax_chunk ExtremeMethod.argmax)).flatten) =
      argminmax_chunk ExtremeMethod.argmax
        ([[((1 : Int), (10 : Int))], [(5, 2)], [(3, 9)]].flatten)) ∧
    reduction ExtremeMethod.argmax [[(1, 10)], [(5, 2)], [(3, 9)]] = some 2 ∧
    reduction ExtremeMethod.argmax [[(1, 10), (5, 2), (3, 9)]] = some 2 :=
  ⟨reduction_partitioning_invariant ExtremeMethod.argmax
      [[(1, 10)], [(5, 2)], [(3, 9)]] (by decide),
   by decide, by decide⟩

/-! ### Grouped aggregation (claim C3)

Source: `DaskExecutor.visit(PandasAggregate)` (executor.py lines 370-394). -/

/-- Position of a column name among the columns of a frame (pandas column
lookup; columns referenced by the plan are present, hence the fallback). -/
def colIdx (f : Frame α) (name : String) : Nat :=
  (f.cols.findIdx? (fun s => s == name)).getD 0

/-- The cell of `row` under column `name` of frame `f`. -/
def cellAt [Inhabited α] (f : Frame α) (row : List α) (name : String) : α :=
  row.getD (colIdx f name) default

/-- The tuple of group-key cells of one row. -/
def keyOfRow [Inhabited α] (f : Frame α) (bycols : List String) (row : List α) :
    List α :=
  bycols.map (cellAt f row)

/-- Pandas `groupby` group labels: the distinct key tuples.  The claims
settled here concern an empty parent, where this list is empty, so the
ordering convention among groups is irrelevant. -/
def groupKeys [Inhabited α] [DecidableEq α] (f : Frame α) (bycols : List String) :
    List (List α) :=
  (f.rows.map (keyOfRow f bycols)).eraseDups

/-- The sub-frame of one group: the rows whose key tuple equals `k`. -/
def groupRows [Inhabited α] [DecidableEq α] (f : Frame α) (bycols : List String)
    (k : List α) : Frame α :=
  { f with rows := f.rows.filter (fun r => decide (keyOfRow f bycols r = k)) }

/-- Declared metadata of one metric result series: series name, declared
dtype, and the names of the group-key index levels — the empty-but-typed
template (the `meta` Series built at executor.py lines 381-389) fixed before
any data is seen. -/
structure SeriesMeta where
  name : String
  dtype : DType
  indexNames : List String
  deriving DecidableEq, Repr

/-- Result of a grouped metric: the schema comes from the meta template, the
data is one entry per group. -/
structure AggSeries (α : Type) where
  meta : SeriesMeta
  index : List (List α)
  values : List α

/-- Dask `GroupBy.apply(metric, meta=meta)` (executor.py line 390): schema
taken from `meta`, one value per group obtained by applying the metric to
the sub-frame of that group. -/
def groupbyApply [Inhabited α] [DecidableEq α] (parent : Frame α)
    (bycols : List String) (metric : Frame α → α) (m : SeriesMeta) :
    AggSeries α :=
  let ks := groupKeys parent bycols
  ⟨m, ks, ks.map (fun k => metric (groupRows parent bycols k))⟩

/-- Pandas `rename(columns=renames)`: map every column name through the
source-name to output-name association list. -/
def applyRename (renames : List (String × String)) (c : String) : String :=
  match renames.find? (fun p => p.1 == c) with
  | some p => p.2
  | none => c

/-- `cls.concat(measures, axis=1).reset_index()` followed by the `rename`
at executor.py lines 392-394: the shared group-key index levels become the
leading columns — typed `object`, as the empty plain-list levels of the meta
`MultiIndex` are — followed by one column per metric series carrying the
declared dtype of that series. -/
def concatResetRename [Inhabited α] (series : List (AggSeries α))
    (indexNames : List String) (index : List (List α))
    (renames : List (String × String)) : Frame α :=
  { cols := (indexNames ++ series.map (fun s => s.meta.name)).map
      (applyRename renames),
    dtypes := indexNames.map (fun _ => DType.object) ++
      series.map (fun s => s.meta.dtype),
    rows := (List.range index.length).map
      (fun i => index.getD i [] ++ series.map (fun s => s.values.getD i default)) }

theorem map_fun_eq_self {β : Type} (f : β → β) (l : List β)
    (h : ∀ x ∈ l, f x = x) : l.map f = l := by
  induction l with
  | nil => rfl
  | cons x xs ih =>
    rw [List.map_cons, h x (by simp), ih (fun y hy => h y (by simp [hy]))]

/-- `DaskExecutor.visit(PandasAggregate)` (executor.py lines 370-394).
`groups` maps each output name to the name of the grouping column of the
parent; `metrics` maps each metric name to its declared result dtype
(`PandasType.from_ibis(op.metrics[name].dtype)`) and its per-group function.
Without groups each metric is applied once to the whole parent and the
scalars assembled into one row (dtypes inferred by the substrate, recorded
here as `object`); with groups each metric is applied per group under its
empty-but-typed meta template, the measure series are concatenated
column-wise, the group index is reset into leading columns, and the grouping
columns are renamed to their output names. -/
def visit_PandasAggregate [Inhabited α] [DecidableEq α] (parent : Frame α)
    (groups : List (String × String))
    (metrics : List (String × DType × (Frame α → α))) : Frame α :=
  if groups.isEmpty then
    { cols := metrics.map (fun m => m.1),
      dtypes := metrics.map (fun _ => DType.object),
      rows := [metrics.map (fun m => m.2.2 parent)] }
  else
    let bycols := groups.map (fun g => g.2)
    let measures := metrics.map (fun m =>
      groupbyApply parent bycols m.2.2 ⟨m.1, m.2.1, groups.map (fun g => g.1)⟩)
    concatResetRename measures (groups.map (fun g => g.1))
      (groupKeys parent bycols) (groups.map (fun g => (g.2, g.1)))

/-- Counterexample for C3 as stated: grouped aggregation on an empty table
with group column `g` and declared metrics `count : int64`, `total : float64`
produces the columns `[g, count, total]` — after `reset_index` the group-key
column is part of the result, so the result does not consist of exactly the
declared metric columns. -/
theorem aggregate_empty_metric_columns_cex :
    (visit_PandasAggregate (α := Int)
        ⟨["g", "x"], [DType.int64, DType.int64], []⟩
        [("g", "g")]
        [("count", DType.int64, fun f => (f.rows.length : Int)),
         ("total", DType.float64, fun _ => 0)]).cols = ["g", "count", "total"] ∧
    (["g", "count", "total"] : List String) ≠ ["count", "total"] := by
  constructor
  · rfl
  · decide

/-- C3 (amended): every grouped aggregation over an empty parent returns
zero rows, its columns are the group-key columns followed by exactly the
declared metric columns, and each metric column carries its declared output
dtype — the schema being fixed by the explicit empty-but-typed per-metric
template before any data is processed, never inferred from zero rows and
never an error.  The rename-identity hypothesis excludes accidental name
collisions between grouping source columns and output columns. -/
theorem aggregate_empty_typed_schema [Inhabited α] [DecidableEq α]
    (parent : Frame α) (groups : List (String × String))
    (metrics : List (String × DType × (Frame α → α)))
    (hempty : parent.rows = []) (hg : groups ≠ [])
    (hrn : ∀ c ∈ groups.map (fun g => g.1) ++ metrics.map (fun m => m.1),
      applyRename (groups.map (fun g => (g.2, g.1))) c = c) :
    (visit_PandasAggregate parent groups metrics).rows = [] ∧
    (visit_PandasAggregate parent groups metrics).cols =
      groups.map (fun g => g.1) ++ metrics.map (fun m => m.1) ∧
    (visit_PandasAggregate parent groups metrics).dtypes =
      groups.map (fun _ => DType.object) ++ metrics.map (fun m => m.2.1) := by
  have hkeys : ∀ bycols, groupKeys parent bycols = [] := by
    intro b
    unfold groupKeys
    rw [hempty]
    rfl
  cases groups with
  | nil => exact absurd rfl hg
  | cons g gs =>
    refine ⟨?_, ?_, ?_⟩
    · simp only [visit_PandasAggregate, List.isEmpty_cons,
        if_neg Bool.false_ne_true, concatResetRename, hkeys,
        List.length_nil, List.range_zero, List.map_nil]
    · simp only [visit_PandasAggregate, List.isEmpty_cons,
        if_neg Bool.false_ne_true, concatResetRename, List.map_map]
      exact map_fun_eq_self _ _ hrn
    · simp only [visit_PandasAggregate, List.isEmpty_cons,
        if_neg Bool.false_ne_true, concatResetRename, List.map_map]
      rfl

/-- Witness for C3 (amended) at a concrete input: empty parent with group
column `g` and metrics `count : int64`, `total : float64` gives zero rows,
columns `[g, count, total]`, and dtypes `[object, int64, float64]`. -/
theorem aggregate_empty_typed_schema_witness :
    (visit_PandasAggregate (α := Int)
        ⟨["g", "x"], [DType.int64, DType.int64], []⟩ [("g", "g")]
        [("count", DType.int64, fun f => (f.rows.length : Int)),
         ("total", DType.float64, fun _ => 0)]).rows = [] ∧
    (visit_PandasAggregate (α := Int)
        ⟨["g", "x"], [DType.int64, DType.int64], []⟩ [("g", "g")]
        [("count", DType.int64, fun f => (f.rows.length : Int)),
         ("total", DType.float64, fun _ => 0)]).cols =
      [("g", "g")].map (fun g => g.1) ++
        [("count", DType.int64, fun (f : Frame Int) => (f.rows.length : Int)),
         ("total", DType.float64, fun _ => 0)].map (fun m => m.1) ∧
    (visit_PandasAggregate (α := Int)
        ⟨["g", "x"], [DType.int64, DType.int64], []⟩ [("g", "g")]
        [("count", DType.int64, fun f => (f.rows.length : Int)),
         ("total", DType.float64, fun _ => 0)]).dtypes =
      [("g", "g")].map (fun _ => DType.object) ++
        [("count", DType.int64, fun (f : Frame Int) => (f.rows.length : Int)),
         ("total", DType.float64, fun _ => 0)].map (fun m => m.2.1) :=
  aggregate_empty_typed_schema
    ⟨["g", "x"], [DType.int64, DType.int64], []⟩ [("g", "g")]
    [("count", DType.int64, fun f => (f.rows.length : Int)),
     ("total", DType.float64, fun _ => 0)]
    rfl (by simp) (by decide)

/-! ### Sort (claim C4)

Source: `DaskExecutor.visit(ops.Sort)` (executor.py lines 343-368). -/

/-- Pandas `na_position` argument: one global placement policy for nulls. -/
inductive NaPos
  | first
  | last
  deriving DecidableEq, Repr

/-- Three-way comparison of one sort-key cell under `sort_values` semantics:
`asc` gives the direction for values; nulls compare equal to each other and
sit before every value when `na_position` is `first`, after every value when
it is `last`. -/
def cmpCell (asc : Bool) (napos : NaPos) : Option Int → Option Int → Ordering
  | none, none => Ordering.eq
  | none, some _ =>
    match napos with
    | NaPos.first => Ordering.lt
    | NaPos.last => Ordering.gt
  | some _, none =>
    match napos with
    | NaPos.first => Ordering.gt
    | NaPos.last => Ordering.lt
  | some a, some b =>
    if a < b then (if asc then Ordering.lt else Ordering.gt)
    else if b < a then (if asc then Ordering.gt else Ordering.lt)
    else Ordering.eq

/-- Lexicographic comparison of key tuples under the per-key `ascending`
flags and the shared `na_position`.  A shorter tuple precedes; the key
tuples built by `rowKeys` always have equal length, so the length-mismatch
cases are inert and only make the order total on the whole type. -/
def cmpKeys : List Bool → NaPos → List (Option Int) → List (Option Int) → Ordering
  | _, _, [], [] => Ordering.eq
  | _, _, [], _ :: _ => Ordering.lt
  | _, _, _ :: _, [] => Ordering.gt
  | ascs, napos, x :: xs, y :: ys =>
    match cmpCell (ascs.headD true) napos x y with
    | Ordering.eq => cmpKeys ascs.tail napos xs ys
    | o => o

/-- The key tuple of the row at position `i`: one cell from each computed
sort-key column (the fresh columns assigned onto the frame at executor.py
lines 360-362). -/
def rowKeys (keys : List (List (Option Int))) (i : Nat) : List (Option Int) :=
  keys.map (fun c => c.getD i none)

/-- The comparator of the sort: the key tuple of `a` does not come after the
key tuple of `b`. -/
def sortLE (ascs : List Bool) (napos : NaPos)
    (a b : List (Option Int) × List α) : Bool :=
  decide (cmpKeys ascs napos a.1 b.1 ≠ Ordering.gt)

/-- One per-key descriptor of `ops.Sort` (`key.ascending`,
`key.nulls_first`). -/
structure SortKey where
  ascending : Bool
  nulls_first : Bool
  deriving DecidableEq, Repr

/-- `df.sort_values(by=names, ascending=ascending, na_position=...)`
followed by `df.drop(names, axis=1)`: sort the rows paired with their key
tuples and discard the tuples. -/
def sortBy (parent : Frame α) (keys : List (List (Option Int)))
    (ascs : List Bool) (napos : NaPos) : Frame α :=
  { parent with
    rows := ((parent.rows.enum.map (fun p => (rowKeys keys p.1, p.2))).mergeSort
      (sortLE ascs napos)).map (fun p => p.2) }

/-- `DaskExecutor.visit(ops.Sort)` (executor.py lines 343-368): derive the
single global `na_position` from the per-key `nulls_first` flags — all true
gives `first`, none true gives `last`, anything mixed raises `ValueError` —
then assign temporary key columns, sort the frame by them, and drop them. -/
def visit_Sort (parent : Frame α) (keys : List (List (Option Int)))
    (opkeys : List SortKey) : Except IbisError (Frame α) :=
  let ascending := opkeys.map (fun k => k.ascending)
  let nf := opkeys.map (fun k => k.nulls_first)
  if nf.all id then
    Except.ok (sortBy parent keys ascending NaPos.first)
  else if nf.any id = false then
    Except.ok (sortBy parent keys ascending NaPos.last)
  else
    Except.error (IbisError.valueError
      "dask does not support specifying null ordering for individual columns")

/-! Order lemmas for the sort comparator. -/

theorem cmpCell_eq_iff (asc : Bool) (napos : NaPos) (x y : Option Int) :
    cmpCell asc napos x y = Ordering.eq ↔ x = y := by
  cases x <;> cases y <;> cases napos <;> cases asc <;>
    simp only [cmpCell] <;> (try split_ifs) <;> simp <;> omega

theorem cmpCell_swap (asc : Bool) (napos : NaPos) (x y : Option Int) :
    cmpCell asc napos y x = (cmpCell asc napos x y).swap := by
  cases x <;> cases y <;> cases napos <;> cases asc <;>
    simp only [cmpCell] <;> (try split_ifs) <;> simp [Ordering.swap] <;> omega

theorem cmpCell_lt_trans (asc : Bool) (napos : NaPos) (x y z : Option Int)
    (h1 : cmpCell asc napos x y = Ordering.lt)
    (h2 : cmpCell asc napos y z = Ordering.lt) :
    cmpCell asc napos x z = Ordering.lt := by
  cases x <;> cases y <;> cases z <;> cases napos <;> cases asc <;>
    simp only [cmpCell] at * <;> (try split_ifs at *) <;> simp_all <;> omega

theorem cmpKeys_eq_iff (ascs : List Bool) (napos : NaPos)
    (x y : List (Option Int)) :
    cmpKeys ascs napos x y = Ordering.eq ↔ x = y := by
  induction x generalizing ascs y with
  | nil => cases y <;> simp [cmpKeys]
  | cons x0 xs ih =>
    cases y with
    | nil => simp [cmpKeys]
    | cons y0 ys =>
      simp only [cmpKeys]
      cases h : cmpCell (ascs.headD true) napos x0 y0 with
      | eq =>
        have hx : x0 = y0 := (cmpCell_eq_iff _ _ _ _).mp h
        simp [hx, ih]
      | lt =>
        have hx : x0 ≠ y0 := by
          intro he
          rw [he, (cmpCell_eq_iff _ _ _ _).mpr rfl] at h
          exact Ordering.noConfusion h
        simp [hx]
      | gt =>
        have hx : x0 ≠ y0 := by
          intro he
          rw [he, (cmpCell_eq_iff _ _ _ _).mpr rfl] at h
          exact Ordering.noConfusion h
        simp [hx]

theorem cmpKeys_swap (ascs : List Bool) (napos : NaPos)
    (x y : List (Option Int)) :
    cmpKeys ascs napos y x = (cmpKeys ascs napos x y).swap := by
  induction x generalizing ascs y with
  | nil => cases y <;> simp [cmpKeys, Ordering.swap]
  | cons x0 xs ih =>
    cases y with
    | nil => simp [cmpKeys, Ordering.swap]
    | cons y0 ys =>
      simp only [cmpKeys, cmpCell_swap _ _ x0 y0]
      cases cmpCell (ascs.headD true) napos x0 y0 <;>
        simp [Ordering.swap, ih]

theorem cmpKeys_lt_trans (ascs : List Bool) (napos : NaPos)
    (x y z : List (Option Int))
    (h1 : cmpKeys ascs napos x y = Ordering.lt)
    (h2 : cmpKeys ascs napos y z = Ordering.lt) :
    cmpKeys ascs napos x z = Ordering.lt := by
  induction x generalizing ascs y z with
  | nil =>
    cases y with
    | nil => exact h2
    | cons y0 ys =>
      cases z with
      | nil => simp [cmpKeys] at h2
      | cons z0 zs => simp [cmpKeys]
  | cons x0 xs ih =>
    cases y with
    | nil => simp [cmpKeys] at h1
    | cons y0 ys =>
      cases z with
      | nil => simp [cmpKeys] at h2
      | cons z0 zs =>
        simp only [cmpKeys] at h1 h2 ⊢
        cases hc1 : cmpCell (ascs.headD true) napos x0 y0 with
        | gt => rw [hc1] at h1; exact Ordering.noConfusion h1
        | eq =>
          rw [hc1] at h1
          have hx : x0 = y0 := (cmpCell_eq_iff _ _ _ _).mp hc1
          subst hx
          cases hc2 : cmpCell (ascs.headD true) napos x0 z0 with
          | gt => rw [hc2] at h2; exact Ordering.noConfusion h2
          | eq =>
            rw [hc2] at h2
            exact ih _ _ _ h1 h2
          | lt => rfl
        | lt =>
          rw [hc1] at h1
          cases hc2 : cmpCell (ascs.headD true) napos y0 z0 with
          | gt => rw [hc2] at h2; exact Ordering.noConfusion h2
          | eq =>
            have hy : y0 = z0 := (cmpCell_eq_iff _ _ _ _).mp hc2
            rw [← hy, hc1]
          | lt => rw [cmpCell_lt_trans _ _ _ _ _ hc1 hc2]

theorem sortLE_trans {α : Type} (ascs : List Bool) (napos : NaPos)
    (a b c : List (Option Int) × List α)
    (h1 : sortLE ascs napos a b = true) (h2 : sortLE ascs napos b c = true) :
    sortLE ascs napos a c = true := by
  simp only [sortLE, decide_eq_true_eq, ne_eq] at h1 h2 ⊢
  intro hac
  cases h1' : cmpKeys ascs napos a.1 b.1 with
  | gt => exact h1 h1'
  | eq =>
    rw [(cmpKeys_eq_iff _ _ _ _).mp h1'] at hac
    exact h2 hac
  | lt =>
    cases h2' : cmpKeys ascs napos b.1 c.1 with
    | gt => exact h2 h2'
    | eq =>
      rw [← (cmpKeys_eq_iff _ _ _ _).mp h2'] at hac
      rw [h1'] at hac
      exact Ordering.noConfusion hac
    | lt =>
      rw [cmpKeys_lt_trans _ _ _ _ _ h1' h2'] at hac
      exact Ordering.noConfusion hac

theorem sortLE_total {α : Type} (ascs : List Bool) (napos : NaPos)
    (a b : List (Option Int) × List α) :
    (sortLE ascs napos a b || sortLE ascs napos b a) = true := by
  simp only [sortLE, ne_eq, Bool.or_eq_true, decide_eq_true_eq]
  by_cases h : cmpKeys ascs napos a.1 b.1 = Ordering.gt
  · right
    rw [cmpKeys_swap, h]
    simp [Ordering.swap]
  · left
    exact h

/-- C4: for every sort whose per-key `nulls_first` flags are mixed, the
translation raises `ValueError` instead of sorting; when the flags agree the
single global null-placement policy (`first` when all flags are set, `last`
when none are) is used: the temporary key columns are attached, the table is
sorted by them under that policy, and they are dropped — the output keeps
the parent columns and dtypes, its rows are a permutation of the parent
rows, and consecutive rows are ordered by the lexicographic key
comparator. -/
theorem sort_mixed_nulls_rejected {α : Type} (parent : Frame α)
    (keys : List (List (Option Int))) (opkeys : List SortKey) :
    ((opkeys.map (fun k => k.nulls_first)).all id = false →
      (opkeys.map (fun k => k.nulls_first)).any id = true →
      visit_Sort parent keys opkeys = Except.error (IbisError.valueError
        "dask does not support specifying null ordering for individual columns")) ∧
    ((opkeys.map (fun k => k.nulls_first)).all id = true →
      ∃ sorted, visit_Sort parent keys opkeys =
          Except.ok { parent with rows := sorted.map (fun p => p.2) } ∧
        sorted.Perm (parent.rows.enum.map (fun p => (rowKeys keys p.1, p.2))) ∧
        List.Pairwise
          (fun a b =>
            sortLE (opkeys.map (fun k => k.ascending)) NaPos.first a b = true)
          sorted) ∧
    ((opkeys.map (fun k => k.nulls_first)).all id = false →
      (opkeys.map (fun k => k.nulls_first)).any id = false →
      ∃ sorted, visit_Sort parent keys opkeys =
          Except.ok { parent with rows := sorted.map (fun p => p.2) } ∧
        sorted.Perm (parent.rows.enum.map (fun p => (rowKeys keys p.1, p.2))) ∧
        List.Pairwise
          (fun a b =>
            sortLE (opkeys.map (fun k => k.ascending)) NaPos.last a b = true)
          sorted) := by
  refine ⟨?_, ?_, ?_⟩
  · intro h1 h2
    simp only [visit_Sort, h1, h2]
    rfl
  · intro h1
    refine ⟨(parent.rows.enum.map (fun p => (rowKeys keys p.1, p.2))).mergeSort
      (sortLE (opkeys.map (fun k => k.ascending)) NaPos.first), ?_, ?_, ?_⟩
    · simp only [visit_Sort, h1]
      rfl
    · exact List.mergeSort_perm _ _
    · exact List.sorted_mergeSort
        (sortLE_trans (opkeys.map (fun k => k.ascending)) NaPos.first)
        (sortLE_total (opkeys.map (fun k => k.ascending)) NaPos.first) _
  · intro h1 h2
    refine ⟨(parent.rows.enum.map (fun p => (rowKeys keys p.1, p.2))).mergeSort
      (sortLE (opkeys.map (fun k => k.ascending)) NaPos.last), ?_, ?_, ?_⟩
    · simp only [visit_Sort, h1, h2]
      rfl
    · exact List.mergeSort_perm _ _
    · exact List.sorted_mergeSort
        (sortLE_trans (opkeys.map (fun k => k.ascending)) NaPos.last)
        (sortLE_total (opkeys.map (fun k => k.ascending)) NaPos.last) _

/-- Witness for C4 at concrete inputs: mixed `nulls_first` flags
`[true, false]` raise the `ValueError`; agreeing flags `[true]` sort the
two-row frame. -/
theorem sort_mixed_nulls_rejected_witness :
    (visit_Sort (α := Int) (Frame.mk ["a"] [DType.int64] [[1], [2]])
        [[some 2, some 1], [some 0, some 0]]
        [SortKey.mk true true, SortKey.mk true false] =
      Except.error (IbisError.valueError
        "dask does not support specifying null ordering for individual columns")) ∧
    ∃ sorted, visit_Sort (α := Int) (Frame.mk ["a"] [DType.int64] [[1], [2]])
        [[some 2, some 1]] [SortKey.mk true true] =
        Except.ok { Frame.mk ["a"] [DType.int64] ([[1], [2]] : List (List Int)) with
          rows := sorted.map (fun p => p.2) } ∧
      sorted.Perm
        ((Frame.mk ["a"] [DType.int64]
          ([[1], [2]] : List (List Int))).rows.enum.map
            (fun p => (rowKeys [[some 2, some 1]] p.1, p.2))) ∧
      List.Pairwise
        (fun a b =>
          sortLE ([SortKey.mk true true].map (fun k => k.ascending))
            NaPos.first a b = true) sorted :=
  ⟨(sort_mixed_nulls_rejected (Frame.mk ["a"] [DType.int64] [[1], [2]])
      [[some 2, some 1], [some 0, some 0]]
      [SortKey.mk true true, SortKey.mk true false]).1 rfl rfl,
   (sort_mixed_nulls_rejected (Frame.mk ["a"] [DType.int64] [[1], [2]])
      [[some 2, some 1]] [SortKey.mk true true]).2.1 rfl⟩

/-! ### Correlation and Covariance (claim C5)

Source: `DaskExecutor.visit(ops.Correlation)` (executor.py lines 206-219)
and `DaskExecutor.visit(ops.Covariance)` (lines 221-234). -/

/-- Pandas truthiness of a mask cell in `df.where`: a missing value counts
as false, a number as its nonzero test. -/
def truthy : Option Int → Bool
  | some v => v != 0
  | none => false

/-- Pandas `df.where(df[colname])`: rows whose mask cell is truthy are kept
unchanged; every cell of any other row is replaced by a null. -/
def df_where (df : Frame (Option Int)) (colname : String) : Frame (Option Int) :=
  { df with rows := df.rows.map (fun r =>
      if truthy (r.getD (colIdx df colname) none) then r
      else r.map (fun _ => none)) }

/-- The optional filter step shared by the two reductions:
`if where is not None: df = df.where(df[where.name])`. -/
def applyWhere (df : Frame (Option Int)) : Option String → Frame (Option Int)
  | some c => df_where df c
  | none => df

/-- `DaskExecutor.visit(ops.Correlation)` (executor.py lines 206-219): the
population convention (`how = pop`) is rejected with
`UnsupportedOperationError` synchronously at translation time; otherwise the
returned aggregation closure applies the optional where-mask and hands the
two named columns to the substrate Pearson correlation (`Series.corr`),
abstracted here as the external parameter `corrFn`. -/
def visit_Correlation {β : Type}
    (corrFn : Frame (Option Int) → String → String → β)
    (left right : String) (w : Option String) (how : String) :
    Except IbisError (Frame (Option Int) → β) :=
  if how = "pop" then
    Except.error (IbisError.unsupportedOperationError
      "Dask does not support corr with how equal to pop")
  else
    Except.ok (fun df => corrFn (applyWhere df w) left right)

/-- `DaskExecutor.visit(ops.Covariance)` (executor.py lines 221-234): same
gate as the correlation rule, delegating to the substrate `Series.cov`. -/
def visit_Covariance {β : Type}
    (covFn : Frame (Option Int) → String → String → β)
    (left right : String) (w : Option String) (how : String) :
    Except IbisError (Frame (Option Int) → β) :=
  if how = "pop" then
    Except.error (IbisError.unsupportedOperationError
      "Dask does not support cov with how equal to pop")
  else
    Except.ok (fun df => covFn (applyWhere df w) left right)

/-- C5: every correlation or covariance node with the population convention
(`how = pop`) is rejected with an explicit unsupported-operation error at
translation time and no aggregation closure is ever produced; any other
convention (in particular sample) is accepted and yields the closure. -/
theorem corr_cov_pop_unsupported {β : Type}
    (corrFn covFn : Frame (Option Int) → String → String → β)
    (left right : String) (w : Option String) (how : String) :
    (how = "pop" →
      visit_Correlation corrFn left right w how =
        Except.error (IbisError.unsupportedOperationError
          "Dask does not support corr with how equal to pop") ∧
      visit_Covariance covFn left right w how =
        Except.error (IbisError.unsupportedOperationError
          "Dask does not support cov with how equal to pop")) ∧
    (how ≠ "pop" →
      visit_Correlation corrFn left right w how =
        Except.ok (fun df => corrFn (applyWhere df w) left right) ∧
      visit_Covariance covFn left right w how =
        Except.ok (fun df => covFn (applyWhere df w) left right)) := by
  constructor
  · intro h
    subst h
    exact ⟨rfl, rfl⟩
  · intro h
    constructor
    · simp only [visit_Correlation, if_neg h]
    · simp only [visit_Covariance, if_neg h]

/-- Witness for C5 at concrete inputs: `how = pop` errors, `how = sample`
yields the aggregation closures. -/
theorem corr_cov_pop_unsupported_witness :
    (visit_Correlation (fun df l r => (df, l, r)) "x" "y" none "pop" =
      Except.error (IbisError.unsupportedOperationError
        "Dask does not support corr with how equal to pop") ∧
     visit_Covariance (fun df l r => (df, l, r)) "x" "y" none "pop" =
      Except.error (IbisError.unsupportedOperationError
        "Dask does not support cov with how equal to pop")) ∧
    (visit_Correlation (fun df l r => (df, l, r)) "x" "y" none "sample" =
      Except.ok (fun df => (applyWhere df none, "x", "y")) ∧
     visit_Covariance (fun df l r => (df, l, r)) "x" "y" none "sample" =
      Except.ok (fun df => (applyWhere df none, "x", "y"))) :=
  ⟨(corr_cov_pop_unsupported (fun df l r => (df, l, r))
      (fun df l r => (df, l, r)) "x" "y" none "pop").1 rfl,
   (corr_cov_pop_unsupported (fun df l r => (df, l, r))
      (fun df l r => (df, l, r)) "x" "y" none "sample").2 (by decide)⟩

/-! ### Result materialization by declared shape (claims C6 and C9)

Source: the tail of `DaskExecutor.execute` (executor.py lines 426-448). -/

/-- The declared cardinality of the original expression
(`original.shape`). -/
inductive Shape
  | scalar
  | columnar
  | tabular
  deriving DecidableEq, Repr

/-- The three result forms `execute` can return. -/
inductive ExecResult (α : Type)
  | scalar (v : α)
  | column (c : List α)
  | table (t : Frame α)
  deriving DecidableEq, Repr

/-- Shape dispatch of `DaskExecutor.execute` (executor.py lines 439-448)
on the materialized, type-converted result frame: `result.iloc[0, 0]` for
scalar shape (`none` models the IndexError when the frame has no cell at
row 0, column 0), `result.iloc[:, 0]` for columnar shape (`none` models the
IndexError when the frame has no column 0), the whole frame for tabular
shape.  No check relates the frame extent to the declared shape. -/
def executeShape [Inhabited α] (result : Frame α) : Shape → Option (ExecResult α)
  | Shape.scalar => (result.rows.head?.bind List.head?).map ExecResult.scalar
  | Shape.columnar =>
    if result.cols.length = 0 then none
    else some (ExecResult.column (result.rows.map (fun r => r.getD 0 default)))
  | Shape.tabular => some (ExecResult.table result)

/-- Counterexample for C6 as stated: a materialized result with two rows and
two columns is not 1 by 1, yet scalar-shaped execute succeeds and returns
the cell at row 0, column 0 instead of failing. -/
theorem execute_scalar_no_shape_check_cex :
    executeShape (α := Int)
      (Frame.mk ["a", "b"] [DType.int64, DType.int64] [[1, 2], [3, 4]])
      Shape.scalar = some (ExecResult.scalar 1) ∧
    ¬((Frame.mk ["a", "b"] [DType.int64, DType.int64]
        ([[1, 2], [3, 4]] : List (List Int))).rows.length = 1 ∧
      (Frame.mk ["a", "b"] [DType.int64, DType.int64]
        ([[1, 2], [3, 4]] : List (List Int))).cols.length = 1) := by
  constructor
  · rfl
  · decide

/-- C6 (amended): for every rectangular materialized result of scalar
shape, execute returns the single cell at row 0, column 0 whenever the
result has at least one row and at least one column — extra rows or columns
are not detected — and it fails exactly when the result has zero rows or
zero columns. -/
theorem execute_scalar_cell00 {α : Type} [Inhabited α] (result : Frame α)
    (hrect : ∀ r ∈ result.rows, r.length = result.cols.length) :
    (result.rows ≠ [] → result.cols ≠ [] →
      ∃ r0, result.rows.head? = some r0 ∧
        executeShape result Shape.scalar =
          some (ExecResult.scalar (r0.getD 0 default))) ∧
    (result.rows = [] ∨ result.cols = [] →
      executeShape result Shape.scalar = none) := by
  constructor
  · intro hr hc
    cases hrows : result.rows with
    | nil => exact absurd hrows hr
    | cons r0 rest =>
      refine ⟨r0, rfl, ?_⟩
      have hlen : r0.length = result.cols.length := by
        apply hrect
        rw [hrows]
        exact List.mem_cons_self r0 rest
      cases hcols : result.cols with
      | nil => exact absurd hcols hc
      | cons c0 cs =>
        cases r0 with
        | nil =>
          rw [hcols] at hlen
          exact absurd hlen.symm (by simp)
        | cons x xs =>
          simp [executeShape, hrows]
  · intro h
    cases h with
    | inl h0 => simp [executeShape, h0]
    | inr h0 =>
      cases hrows : result.rows with
      | nil => simp [executeShape, hrows]
      | cons r0 rest =>
        have hlen : r0.length = result.cols.length := by
          apply hrect
          rw [hrows]
          exact List.mem_cons_self r0 rest
        rw [h0] at hlen
        have : r0 = [] := List.length_eq_zero.mp (by simpa using hlen)
        simp [executeShape, hrows, this]

/-- Witness for C6 (amended) at a concrete input: a 2-row, 2-column result
of scalar shape yields cell (0, 0); a zero-row result fails. -/
theorem execute_scalar_cell00_witness :
    ((Frame.mk ["a", "b"] [DType.int64, DType.int64]
        ([[1, 2], [3, 4]] : List (List Int))).rows ≠ [] →
      (Frame.mk ["a", "b"] [DType.int64, DType.int64]
        ([[1, 2], [3, 4]] : List (List Int))).cols ≠ [] →
      ∃ r0, (Frame.mk ["a", "b"] [DType.int64, DType.int64]
          ([[1, 2], [3, 4]] : List (List Int))).rows.head? = some r0 ∧
        executeShape (Frame.mk ["a", "b"] [DType.int64, DType.int64]
          ([[1, 2], [3, 4]] : List (List Int))) Shape.scalar =
          some (ExecResult.scalar (r0.getD 0 default))) ∧
    ((Frame.mk ["a", "b"] [DType.int64, DType.int64]
        ([[1, 2], [3, 4]] : List (List Int))).rows = [] ∨
      (Frame.mk ["a", "b"] [DType.int64, DType.int64]
        ([[1, 2], [3, 4]] : List (List Int))).cols = [] →
      executeShape (Frame.mk ["a", "b"] [DType.int64, DType.int64]
        ([[1, 2], [3, 4]] : List (List Int))) Shape.scalar = none) :=
  execute_scalar_cell00
    (Frame.mk ["a", "b"] [DType.int64, DType.int64] [[1, 2], [3, 4]])
    (by decide)

/-- C9: for every materialized result with at least one column, columnar
execute returns column 0 regardless of how many columns the result has — no
check that exactly one column is present — and a result with zero rows
yields an empty column rather than a missing one. -/
theorem execute_columnar_first_column {α : Type} [Inhabited α]
    (result : Frame α) (hc : result.cols ≠ []) :
    executeShape result Shape.columnar =
      some (ExecResult.column (result.rows.map (fun r => r.getD 0 default))) ∧
    (result.rows = [] →
      executeShape result Shape.columnar = some (ExecResult.column [])) := by
  have hne : ¬result.cols.length = 0 := by
    simpa [List.length_eq_zero] using hc
  constructor
  · simp [executeShape, hne]
  · intro h
    simp [executeShape, hne, h]

/-- Witness for C9 at concrete inputs: a two-column result yields its first
column, and a two-column zero-row result yields the empty column. -/
theorem execute_columnar_first_column_witness :
    (executeShape (α := Int)
        (Frame.mk ["a", "b"] [DType.int64, DType.int64] [[1, 2], [3, 4]])
        Shape.columnar =
      some (ExecResult.column
        (([[1, 2], [3, 4]] : List (List Int)).map (fun r => r.getD 0 default))) ∧
      ((Frame.mk ["a", "b"] [DType.int64, DType.int64]
        ([[1, 2], [3, 4]] : List (List Int))).rows = [] →
        executeShape (Frame.mk ["a", "b"] [DType.int64, DType.int64]
          ([[1, 2], [3, 4]] : List (List Int))) Shape.columnar =
          some (ExecResult.column []))) ∧
    (executeShape (α := Int)
        (Frame.mk ["a", "b"] [DType.int64, DType.int64] []) Shape.columnar =
      some (ExecResult.column (([] : List (List Int)).map (fun r => r.getD 0 default))) ∧
      ((Frame.mk ["a", "b"] [DType.int64, DType.int64]
        ([] : List (List Int))).rows = [] →
        executeShape (Frame.mk ["a", "b"] [DType.int64, DType.int64]
          ([] : List (List Int))) Shape.columnar =
          some (ExecResult.column []))) :=
  ⟨execute_columnar_first_column
      (Frame.mk ["a", "b"] [DType.int64, DType.int64] [[1, 2], [3, 4]])
      (by decide),
   execute_columnar_first_column
      (Frame.mk ["a", "b"] [DType.int64, DType.int64] []) (by decide)⟩

/-! ### Filter (claim C7)

Source: `DaskExecutor.visit(ops.Filter)` (executor.py lines 336-341). -/

/-- `DaskExecutor.visit(ops.Filter)`: with a nonempty predicate list,
`reduce(operator.and_, predicates)` combines the boolean predicate columns
elementwise, and the combined column is applied as a boolean mask
(`parent.loc[pred]` followed by `reset_index(drop=True)`); with no
predicates the parent is returned unchanged. -/
def visit_Filter (parent : Frame α) (predicates : List (List Bool)) : Frame α :=
  match predicates with
  | [] => parent
  | p :: ps =>
    let pred := ps.foldl (fun a b => a.zipWith (fun x y => x && y) b) p
    { parent with
      rows := ((parent.rows.zip pred).filter (fun q => q.2)).map (fun q => q.1) }

/-- The conjunction of all predicate columns read pointwise: position `i` of
the mask is true exactly when every predicate column holds at `i`. -/
def andMask (predicates : List (List Bool)) (n : Nat) : List Bool :=
  (List.range n).map (fun i => predicates.all (fun c => c.getD i false))

theorem getD_zipWith_and (a b : List Bool) (i : Nat) :
    (a.zipWith (fun x y => x && y) b).getD i false =
      (a.getD i false && b.getD i false) := by
  induction a generalizing b i with
  | nil => simp
  | cons x xs ih =>
    cases b with
    | nil => simp
    | cons y ys =>
      cases i with
      | zero => rfl
      | succ j => simpa using ih ys j

theorem foldl_zipWith_and_getD (ps : List (List Bool)) (p : List Bool) (i : Nat) :
    (ps.foldl (fun a b => a.zipWith (fun x y => x && y) b) p).getD i false =
      (p.getD i false && ps.all (fun c => c.getD i false)) := by
  induction ps generalizing p with
  | nil => simp
  | cons q qs ih =>
    rw [List.foldl_cons, ih, getD_zipWith_and]
    simp [Bool.and_assoc]

theorem foldl_zipWith_and_length (ps : List (List Bool)) (p : List Bool)
    (h : ∀ c ∈ ps, c.length = p.length) :
    (ps.foldl (fun a b => a.zipWith (fun x y => x && y) b) p).length = p.length := by
  induction ps generalizing p with
  | nil => rfl
  | cons q qs ih =>
    rw [List.foldl_cons]
    have hq : q.length = p.length := h q (List.mem_cons_self q qs)
    have hzw : (p.zipWith (fun x y => x && y) q).length = p.length := by
      simp [List.length_zipWith, hq]
    rw [ih _ (fun c hc => by rw [h c (List.mem_cons_of_mem q hc), hzw]), hzw]

theorem foldl_zipWith_and_eq_andMask (ps : List (List Bool)) (p : List Bool)
    (h : ∀ c ∈ ps, c.length = p.length) :
    ps.foldl (fun a b => a.zipWith (fun x y => x && y) b) p =
      andMask (p :: ps) p.length := by
  apply List.ext_getElem
  · simp [andMask, foldl_zipWith_and_length ps p h]
  · intro i h1 h2
    have hi : i < p.length := by
      rw [foldl_zipWith_and_length ps p h] at h1
      exact h1
    rw [← List.getD_eq_getElem _ false h1, foldl_zipWith_and_getD]
    simp [andMask, List.getD_eq_getElem _ false hi, List.all_cons]

/-- C7: the filter rule combines all predicate columns with logical AND and
applies the combined column as a boolean mask to the parent rows, keeping
the parent columns; an empty predicate list is the identity and returns the
parent unchanged. -/
theorem filter_and_mask {α : Type} (parent : Frame α) (p : List Bool)
    (ps : List (List Bool)) (hlen : ∀ c ∈ ps, c.length = p.length) :
    visit_Filter parent [] = parent ∧
    (visit_Filter parent (p :: ps)).cols = parent.cols ∧
    (visit_Filter parent (p :: ps)).dtypes = parent.dtypes ∧
    (visit_Filter parent (p :: ps)).rows =
      ((parent.rows.zip (andMask (p :: ps) p.length)).filter
        (fun q => q.2)).map (fun q => q.1) := by
  refine ⟨rfl, rfl, rfl, ?_⟩
  simp only [visit_Filter, foldl_zipWith_and_eq_andMask ps p hlen]

/-- Witness for C7 at a concrete input: predicates `[true, false, true]` and
`[true, true, false]` over a three-row table keep exactly the first row,
and the empty predicate list is the identity. -/
theorem filter_and_mask_witness :
    (visit_Filter (α := Int) (Frame.mk ["a"] [DType.int64] [[1], [2], [3]]) []
        = Frame.mk ["a"] [DType.int64] [[1], [2], [3]] ∧
      (visit_Filter (α := Int) (Frame.mk ["a"] [DType.int64] [[1], [2], [3]])
        [[true, false, true], [true, true, false]]).cols =
        (Frame.mk ["a"] [DType.int64] ([[1], [2], [3]] : List (List Int))).cols ∧
      (visit_Filter (α := Int) (Frame.mk ["a"] [DType.int64] [[1], [2], [3]])
        [[true, false, true], [true, true, false]]).dtypes =
        (Frame.mk ["a"] [DType.int64] ([[1], [2], [3]] : List (List Int))).dtypes ∧
      (visit_Filter (α := Int) (Frame.mk ["a"] [DType.int64] [[1], [2], [3]])
        [[true, false, true], [true, true, false]]).rows =
        (((Frame.mk ["a"] [DType.int64]
            ([[1], [2], [3]] : List (List Int))).rows.zip
          (andMask [[true, false, true], [true, true, false]]
            [true, false, true].length)).filter (fun q => q.2)).map
          (fun q => q.1)) ∧
    (visit_Filter (α := Int) (Frame.mk ["a"] [DType.int64] [[1], [2], [3]])
      [[true, false, true], [true, true, false]]).rows = [[1]] :=
  ⟨filter_and_mask (Frame.mk ["a"] [DType.int64] [[1], [2], [3]])
      [true, false, true] [[true, true, false]] (by decide),
   by decide⟩

/-! ### Table scan (claim C8)

Source: `DaskExecutor.visit(ops.DatabaseTable)` (executor.py lines
286-294). -/

/-- The backing catalog of a backend: its name and the dictionary mapping
registered table names to partitioned tables. -/
structure Backend (τ : Type) where
  name : String
  dictionary : List (String × τ)

/-- `DaskExecutor.visit(ops.DatabaseTable)`: look the table name up in the
dictionary of the source backend; a missing name raises
`UnboundExpressionError` — a configuration error distinct by construction
from the other error classes — and a registered name returns the registered
partitioned table. -/
def visit_DatabaseTable {τ : Type} (source : Backend τ) (name : String) :
    Except IbisError τ :=
  match source.dictionary.lookup name with
  | some t => Except.ok t
  | none => Except.error (IbisError.unboundExpressionError
      (name ++ " is not a table in the " ++ source.name ++
        " backend, you probably tried to execute an expression without a data source"))

/-- C8: every table-scan whose name is not registered in the backing
dictionary fails with an unbound-expression error at translation time —
a configuration error carried by a constructor distinct from the other
error classes — and every registered name returns the registered
partitioned table. -/
theorem database_table_lookup {τ : Type} (source : Backend τ) (name : String) :
    (source.dictionary.lookup name = none →
      ∃ msg, visit_DatabaseTable source name =
        Except.error (IbisError.unboundExpressionError msg)) ∧
    (∀ t, source.dictionary.lookup name = some t →
      visit_DatabaseTable source name = Except.ok t) := by
  constructor
  · intro h
    refine ⟨name ++ " is not a table in the " ++ source.name ++
      " backend, you probably tried to execute an expression without a data source", ?_⟩
    simp [visit_DatabaseTable, h]
  · intro t h
    simp [visit_DatabaseTable, h]

/-- Witness for C8 at a concrete catalog: the registered name `t` resolves
to its table, the unregistered name `missing` raises the unbound error. -/
theorem database_table_lookup_witness :
    (∀ t : Nat, (Backend.mk "dask" [("t", 7)]).dictionary.lookup "t" = some t →
      visit_DatabaseTable (Backend.mk "dask" [("t", 7)]) "t" = Except.ok t) ∧
    ((Backend.mk "dask" ([("t", 7)] : List (String × Nat))).dictionary.lookup
        "missing" = none →
      ∃ msg, visit_DatabaseTable (Backend.mk "dask" [("t", 7)]) "missing" =
        Except.error (IbisError.unboundExpressionError msg)) ∧
    visit_DatabaseTable (Backend.mk "dask" [("t", 7)]) "t" = Except.ok 7 :=
  ⟨(database_table_lookup (Backend.mk "dask" [("t", 7)]) "t").2,
   fun h => (database_table_lookup (Backend.mk "dask" [("t", 7)]) "missing").1 h,
   (database_table_lookup (Backend.mk "dask" [("t", 7)]) "t").2 7 rfl⟩

/-! ### Projection of all-scalar values (claim C10)

Source: `DaskExecutor.visit(ops.Project)` (executor.py lines 329-334). -/

/-- One compiled projection value: a scalar or a column. -/
inductive ColValue (α : Type)
  | scalar (v : α)
  | column (vs : List α)
  deriving DecidableEq, Repr

/-- Does a compiled value have scalar shape at runtime? -/
def isScalarV : ColValue α → Bool
  | ColValue.scalar _ => true
  | ColValue.column _ => false

/-- Modelled from the spec: `DaskUtils.asframe`
(ibis/backends/dask/helpers.py, imported by the executor but not under
src/): assemble named compiled values into a frame together with the
all-scalars flag; when every value is a scalar the frame has exactly one
row holding the scalars, otherwise the columns are aligned to the first
column length with scalars broadcast (dtypes are inferred by the substrate,
recorded here as `object`). -/
def asframe [Inhabited α] (values : List (String × ColValue α)) :
    Frame α × Bool :=
  if values.all (fun v => isScalarV v.2) then
    (⟨values.map (fun v => v.1), values.map (fun _ => DType.object),
      [values.map (fun v => match v.2 with
        | ColValue.scalar x => x
        | ColValue.column _ => default)]⟩, true)
  else
    let n := (values.findSome? (fun v => match v.2 with
      | ColValue.column c => some c.length
      | ColValue.scalar _ => none)).getD 0
    (⟨values.map (fun v => v.1), values.map (fun _ => DType.object),
      (List.range n).map (fun i => values.map (fun v => match v.2 with
        | ColValue.scalar x => x
        | ColValue.column c => c.getD i default))⟩, false)

/-- `dd.concat` applied to a list of frames sharing one schema: the rows
are concatenated; an empty list raises
`ValueError("No objects to concatenate")`. -/
def dd_concat (fs : List (Frame α)) : Except IbisError (Frame α) :=
  match fs with
  | [] => Except.error (IbisError.valueError "No objects to concatenate")
  | f :: rest =>
    Except.ok ⟨f.cols, f.dtypes, f.rows ++ (rest.map (fun g => g.rows)).flatten⟩

/-- `DaskExecutor.visit(ops.Project)` (executor.py lines 329-334): assemble
the compiled projection values into a frame; when every value is a scalar
and the parent row count differs from the frame length, replace the frame
by `dd.concat([df] * len(parent))`. -/
def visit_Project [Inhabited α] (parent : Frame α)
    (values : List (String × ColValue α)) : Except IbisError (Frame α) :=
  let fr := asframe values
  if fr.2 && decide (parent.rows.length ≠ fr.1.rows.length) then
    dd_concat (List.replicate parent.rows.length fr.1)
  else
    Except.ok fr.1

theorem flatten_replicate_singleton {β : Type} (k : Nat) (x : β) :
    (List.replicate k [x]).flatten = List.replicate k x := by
  induction k with
  | zero => rfl
  | succ j ih => simp [List.replicate_succ, ih]

/-- Counterexample for C10 as stated: an all-scalar projection over a parent
with zero rows (row count 0, differing from the one-row frame) concatenates
zero copies of the one-row frame, and `dd.concat` of an empty list raises
`ValueError` instead of producing the claimed zero-row result. -/
theorem project_scalar_broadcast_empty_cex :
    (asframe (α := Int) [("x", ColValue.scalar 1)]).2 = true ∧
    (asframe (α := Int) [("x", ColValue.scalar 1)]).1.rows.length = 1 ∧
    (Frame.mk ["a"] [DType.int64] ([] : List (List Int))).rows.length = 0 ∧
    visit_Project (Frame.mk ["a"] [DType.int64] ([] : List (List Int)))
      [("x", ColValue.scalar 1)] =
      Except.error (IbisError.valueError "No objects to concatenate") := by
  refine ⟨rfl, rfl, rfl, rfl⟩

/-- C10 (amended): for every projection whose values all compile to
scalars, over a nonempty parent whose row count differs from the length of
the assembled one-row frame, the result is that frame concatenated once per
parent row — its rows are the scalar row repeated exactly parent-row-count
times (an empty parent instead makes the concatenation of zero frames raise
`ValueError`, see the counterexample). -/
theorem project_scalar_broadcast {α : Type} [Inhabited α] (parent : Frame α)
    (values : List (String × ColValue α))
    (hs : values.all (fun v => isScalarV v.2) = true)
    (hne : parent.rows ≠ [])
    (hlen : parent.rows.length ≠ 1) :
    visit_Project parent values = Except.ok
      (Frame.mk (values.map (fun v => v.1))
        (values.map (fun _ => DType.object))
        (List.replicate parent.rows.length
          (values.map (fun v => match v.2 with
            | ColValue.scalar x => x
            | ColValue.column _ => default)))) := by
  cases hrows : parent.rows with
  | nil => exact absurd hrows hne
  | cons r rest =>
    simp only [visit_Project, asframe, if_pos hs, List.length_cons, hrows]
    have hcond : decide ((r :: rest).length ≠
        ([values.map (fun v => match v.2 with
          | ColValue.scalar x => x
          | ColValue.column _ => default)] : List (List α)).length) = true := by
      rw [hrows] at hlen
      simpa using hlen
    rw [List.length_cons] at hcond
    simp only [Bool.true_and, hcond, if_pos]
    rw [List.replicate_succ, dd_concat]
    simp [flatten_replicate_singleton, List.replicate_succ]

/-- Witness for C10 (amended) at a concrete input: two scalar values over a
three-row parent produce three copies of the scalar row. -/
theorem project_scalar_broadcast_witness :
    visit_Project (α := Int) (Frame.mk ["a"] [DType.int64] [[1], [2], [3]])
      [("x", ColValue.scalar 7), ("y", ColValue.scalar 8)] = Except.ok
      (Frame.mk
        ([("x", ColValue.scalar (7 : Int)), ("y", ColValue.scalar 8)].map
          (fun v => v.1))
        ([("x", ColValue.scalar (7 : Int)), ("y", ColValue.scalar 8)].map
          (fun _ => DType.object))
        (List.replicate
          (Frame.mk ["a"] [DType.int64] ([[1], [2], [3]] : List (List Int))).rows.length
          ([("x", ColValue.scalar (7 : Int)), ("y", ColValue.scalar 8)].map
            (fun v => match v.2 with
              | ColValue.scalar x => x
              | ColValue.column _ => default)))) ∧
    List.replicate
        (Frame.mk ["a"] [DType.int64] ([[1], [2], [3]] : List (List Int))).rows.length
        ([("x", ColValue.scalar (7 : Int)), ("y", ColValue.scalar 8)].map
          (fun v => match v.2 with
            | ColValue.scalar x => x
            | ColValue.column _ => default)) = [[7, 8], [7, 8], [7, 8]] :=
  ⟨project_scalar_broadcast (Frame.mk ["a"] [DType.int64] [[1], [2], [3]])
      [("x", ColValue.scalar 7), ("y", ColValue.scalar 8)]
      (by decide) (by decide) (by decide),
   by decide⟩

end DaskExec
